import Mathlib

/-!
Shallow embedding of `oxford_dictionary/main.py`.

The repository implements a word-lookup facade: a fixed-capacity
least-recently-used cache (`DictionaryEntryCache`, built on the linked
container `DataList` imported from the external module `datalist`), a
lookup orchestrator (`Dictionary`) composing the cache with a backing
source, and two backing sources (`LocalDictionary`, `OxfordDictionary`).

Conventions of the embedding:
* Python exceptions become `Except PyErr`.
* The HTTP layer of `OxfordDictionary.search` is abstracted as a
  function from the issued request to the parsed response: the fields
  the code extracts from the JSON body (`id`, the first lexical entry's
  category, the first sense's first definition and first example text)
  are response fields, each `Option`al because the corresponding key may
  be absent from the JSON (an absent key raises `KeyError` in Python).
* The `DataList` container is not part of the repository sources; its
  operations (`add_to_head`, `remove`, cursor-driven traversal via
  `reset_current`/`iterate`, `remove_after`) are modelled from the spec
  (section 4.1 LinkedSequence).  Every traversal in the cache code calls
  `reset_current` before iterating, so a traversal is embedded as
  structural recursion over the list of node payloads.
-/

deriving instance DecidableEq for Except

/-- Python-style exceptions raised by the embedded code. -/
inductive PyErr where
  | keyError (msg : String)
  | valueError (msg : String)
  | typeError (msg : String)
  | runtimeError (msg : String)
deriving DecidableEq, Repr

/-- `DictionaryEntry` from `main.py`: word, part of speech, definition,
optional example. -/
structure DictionaryEntry where
  word : String
  part_of_speech : String
  definition : String
  «example» : Option String
deriving DecidableEq, Repr

/-- A Python value flowing into the cache or out of a backing source:
either a `DictionaryEntry` or a plain string (the `"word not found"`
sentinel returned by `OxfordDictionary.search`). -/
inductive PyVal where
  | entry (e : DictionaryEntry)
  | str (s : String)
deriving DecidableEq, Repr

/-- `DictionaryEntryCache` state: configured capacity, the `count`
field maintained by the code, and the entries of the underlying
`DataList` from head (most recently touched) to tail. -/
structure DictionaryEntryCache where
  capacity : Nat
  count : Nat
  entries : List DictionaryEntry
deriving DecidableEq, Repr

/-- `DictionaryEntryCache.__init__`: rejects `capacity < 1` with
`ValueError`, otherwise starts with an empty `DataList` and `count = 0`. -/
def DictionaryEntryCache.init (capacity : Nat) : Except PyErr DictionaryEntryCache :=
  if capacity < 1 then
    .error (.valueError "Capacity should be at least 1")
  else
    .ok { capacity := capacity, count := 0, entries := [] }

/-- The loop body of `DictionaryEntryCache.remove_tail`: walk from the
head; a node with no successor raises `RuntimeError`; when the
successor has no successor, unlink that successor (the tail) and stop.
On the empty list the `while` loop never runs and nothing is removed. -/
def remove_tailAux : List DictionaryEntry → Except PyErr (List DictionaryEntry)
  | [] => .ok []
  | [_] => .error (.runtimeError "Something's very wrong")
  | [x, _] => .ok [x]
  | x :: y :: z :: rest =>
    match remove_tailAux (y :: z :: rest) with
    | .ok l => .ok (x :: l)
    | .error e => .error e

/-- `DictionaryEntryCache.remove_tail`: run the traversal loop, then
decrement `count` (the decrement is skipped when the loop raised). -/
def DictionaryEntryCache.remove_tail (c : DictionaryEntryCache) :
    Except PyErr DictionaryEntryCache :=
  match remove_tailAux c.entries with
  | .ok l => .ok { c with entries := l, count := c.count - 1 }
  | .error e => .error e

/-- `DictionaryEntryCache.add`: a non-`DictionaryEntry` argument raises
`TypeError`; otherwise `add_to_head` (head insertion, modelled from the
spec section 4.1), increment `count`, and evict the tail when `count`
exceeds `capacity`. -/
def DictionaryEntryCache.add (c : DictionaryEntryCache) (v : PyVal) :
    Except PyErr DictionaryEntryCache :=
  match v with
  | .str _ => .error (.typeError "entry should be DictionaryEntry")
  | .entry e =>
    let c₁ : DictionaryEntryCache :=
      { c with entries := e :: c.entries, count := c.count + 1 }
    if c₁.count > c₁.capacity then c₁.remove_tail else .ok c₁

/-- The scan loop of `DictionaryEntryCache.search`: first entry whose
`word` equals the searched word. -/
def searchLoop : List DictionaryEntry → String → Option DictionaryEntry
  | [], _ => none
  | e :: rest, w => if e.word = w then some e else searchLoop rest w

/-- Modelled from the spec: `DataList.remove` locates the first node
holding the given value, unlinks it, and fails with a not-found
condition when no node matches. -/
def removeVal : List DictionaryEntry → DictionaryEntry → Except PyErr (List DictionaryEntry)
  | [], _ => .error (.valueError "value not found")
  | x :: rest, v =>
    if x = v then .ok rest
    else
      match removeVal rest v with
      | .ok l => .ok (x :: l)
      | .error e => .error e

/-- `DictionaryEntryCache.search`: scan for the word; on a match remove
that entry from its position and re-insert it at the head, returning
it; otherwise raise `KeyError`.  `count` is not touched. -/
def DictionaryEntryCache.search (c : DictionaryEntryCache) (word : String) :
    Except PyErr (DictionaryEntry × DictionaryEntryCache) :=
  match searchLoop c.entries word with
  | some entry =>
    match removeVal c.entries entry with
    | .ok l => .ok (entry, { c with entries := entry :: l })
    | .error e => .error e
  | none => .error (.keyError ("Cannot find " ++ word))

/-- The `DictionarySource` enum: which tier satisfied a lookup. -/
inductive DictionarySource where
  | LOCAL
  | CACHE
  | OXFORD_ONLINE
deriving DecidableEq, Repr

/-- `LocalDictionary`: a mapping from words to entries, loaded from a
serialized file by an external collaborator; `search` is a direct,
case-sensitive key lookup raising `KeyError` when absent. -/
structure LocalDictionary where
  dictionary : String → Option DictionaryEntry

/-- `LocalDictionary.search`. -/
def LocalDictionary.search (ld : LocalDictionary) (word : String) : Except PyErr PyVal :=
  match ld.dictionary word with
  | some e => .ok (.entry e)
  | none => .error (.keyError word)

/-- `OxfordDictionary` holds the two hardcoded credentials set by its
constructor. -/
structure OxfordDictionary where
  APP_ID : String
  APP_KEY : String
deriving DecidableEq, Repr

/-- `OxfordDictionary.__init__`. -/
def OxfordDictionary.init : OxfordDictionary :=
  { APP_ID := "5a065188", APP_KEY := "cb986155975e3c58923550cdd197660c" }

/-- The HTTP request issued by `OxfordDictionary.search`: the GET URL
and the header dictionary. -/
structure OxfordRequest where
  url : String
  headers : List (String × String)
deriving DecidableEq, Repr

/-- The request built inside `OxfordDictionary.search`:
`url = endpoint + language + "/ " + word.lower()` with
`language = "en-gb"`, and headers carrying `app_id` and `app_key`. -/
def OxfordDictionary.request (od : OxfordDictionary) (word : String) : OxfordRequest :=
  { url := "https://od-api.oxforddictionaries.com:443/api/v2/entries/"
      ++ "en-gb" ++ "/ " ++ word.toLower,
    headers := [("app_id", od.APP_ID), ("app_key", od.APP_KEY)] }

/-- The parts of an HTTP response that `OxfordDictionary.search`
inspects: the status code and the JSON fields it extracts.  A `none`
field models the key being absent from the JSON body. -/
structure HttpResp where
  status : Int
  id : Option String
  lexicalCategory : Option String
  definition : Option String
  «example» : Option String

/-- `OxfordDictionary.search`: issue the GET; non-200 status raises
`KeyError`; a 200 response without `id` returns the plain string
`"word not found"`; otherwise extract category and definition (their
absence raises an uncaught `KeyError`) and the optional example
(absence caught, yielding `None`), building a `DictionaryEntry` whose
word is the response's `id` field. -/
def OxfordDictionary.search (od : OxfordDictionary) (http : OxfordRequest → HttpResp)
    (word : String) : Except PyErr PyVal :=
  let r := http (od.request word)
  if r.status ≠ 200 then .error (.keyError ("code " ++ toString r.status))
  else
    match r.id with
    | none => .ok (.str "word not found")
    | some word_resp =>
      match r.lexicalCategory with
      | none => .error (.keyError "lexicalCategory")
      | some part_of_speech_resp =>
        match r.definition with
        | none => .error (.keyError "definitions")
        | some definition_resp =>
          .ok (.entry { word := word_resp,
                        part_of_speech := part_of_speech_resp,
                        definition := definition_resp,
                        «example» := r.«example» })

/-- `Dictionary` state: the source tag, the backing source's `search`
method (`LocalDictionary` or `OxfordDictionary`, abstracted as a
function), and the entry cache. -/
structure Dictionary where
  source : DictionarySource
  dictionary : String → Except PyErr PyVal
  dictionary_entry_cache : DictionaryEntryCache

/-- `Dictionary.__init__`: selects the backing source by tag, raising a
bare `ValueError` for any tag other than `OXFORD_ONLINE` and `LOCAL`,
then constructs `DictionaryEntryCache(1)`. -/
def Dictionary.init (oxford locald : String → Except PyErr PyVal)
    (source : DictionarySource) : Except PyErr Dictionary :=
  match source with
  | .OXFORD_ONLINE =>
    match DictionaryEntryCache.init 1 with
    | .ok c => .ok { source := source, dictionary := oxford, dictionary_entry_cache := c }
    | .error e => .error e
  | .LOCAL =>
    match DictionaryEntryCache.init 1 with
    | .ok c => .ok { source := source, dictionary := locald, dictionary_entry_cache := c }
    | .error e => .error e
  | .CACHE => .error (.valueError "")

/-- `Dictionary.search`: try the cache first; on a hit return the entry
with the `CACHE` tier; on the cache's `KeyError` ask the backing
source, insert its result into the cache, and return it with the
configured source tier; any backing-source exception (and any exception
from the insert) propagates with the dictionary state it left behind. -/
def Dictionary.search (d : Dictionary) (word : String) :
    Except PyErr (PyVal × DictionarySource) × Dictionary :=
  match d.dictionary_entry_cache.search word with
  | .ok (entry, c) =>
    (.ok (.entry entry, DictionarySource.CACHE), { d with dictionary_entry_cache := c })
  | .error (.keyError _) =>
    match d.dictionary word with
    | .ok v =>
      match d.dictionary_entry_cache.add v with
      | .ok c => (.ok (v, d.source), { d with dictionary_entry_cache := c })
      | .error e => (.error e, d)
    | .error e => (.error e, d)
  | .error e => (.error e, d)

/-- Run a sequence of `add` calls, each argument a well-formed entry. -/
def foldAdds (c : DictionaryEntryCache) : List DictionaryEntry → Except PyErr DictionaryEntryCache
  | [] => .ok c
  | e :: es =>
    match c.add (.entry e) with
    | .ok c' => foldAdds c' es
    | .error err => .error err

/-- Structural well-formedness of a cache state: the `count` field
agrees with the number of resident entries, residency never exceeds
capacity, and the capacity is at least 1.  This holds for every state
reachable from `DictionaryEntryCache.init`. -/
def DictionaryEntryCache.wf (c : DictionaryEntryCache) : Prop :=
  c.count = c.entries.length ∧ c.count ≤ c.capacity ∧ 1 ≤ c.capacity

instance (c : DictionaryEntryCache) : Decidable c.wf := by
  unfold DictionaryEntryCache.wf; infer_instance

/-- Sample entry used by concrete witnesses (spec section 8 scenario). -/
def runEntry : DictionaryEntry :=
  { word := "run", part_of_speech := "verb", definition := "move at speed",
    «example» := some "he can run fast" }

/-- Second sample entry used by concrete witnesses. -/
def walkEntry : DictionaryEntry :=
  { word := "walk", part_of_speech := "verb", definition := "move on foot",
    «example» := none }

/-- Third sample entry used by concrete witnesses. -/
def jumpEntry : DictionaryEntry :=
  { word := "jump", part_of_speech := "verb", definition := "push off the ground",
    «example» := none }

/-- The URL the claim describes for the remote source's GET: the fixed
endpoint, the language code, a path separator, and exactly the
lowercased input word.  Written from the claim's words, to be compared
with `OxfordDictionary.request`, which is translated from the code. -/
def claimOxfordUrl (word : String) : String :=
  "https://od-api.oxforddictionaries.com:443/api/v2/entries/"
    ++ "en-gb" ++ "/" ++ word.toLower

/-- A backing-source function for concrete scenarios: a
`LocalDictionary` holding `run` and `walk` (spec section 8 scenario). -/
def localSample : String → Except PyErr PyVal :=
  LocalDictionary.search
    { dictionary := fun w =>
        if w = "run" then some runEntry
        else if w = "walk" then some walkEntry
        else none }

/-- A fixed HTTP environment: every request is answered with status 200
and the JSON fields of the `run` entry, its `id` being `"run"`. -/
def oxfordRespRun : OxfordRequest → HttpResp := fun _ =>
  { status := 200, id := some "run", lexicalCategory := some "verb",
    definition := some "move at speed", «example» := some "he can run fast" }

/-- A fixed HTTP environment answering every request with status 200
and a JSON body that lacks the `id` field. -/
def oxfordRespNoId : OxfordRequest → HttpResp := fun _ =>
  { status := 200, id := none, lexicalCategory := none,
    definition := none, «example» := none }

/-- A `Dictionary` using the remote source over `oxfordRespRun`, with
the fresh capacity-1 cache that `Dictionary.__init__` creates. -/
def dOxford : Dictionary :=
  { source := .OXFORD_ONLINE,
    dictionary := OxfordDictionary.init.search oxfordRespRun,
    dictionary_entry_cache := { capacity := 1, count := 0, entries := [] } }

/-- A `Dictionary` using the remote source over `oxfordRespNoId`, with
the fresh capacity-1 cache that `Dictionary.__init__` creates. -/
def dOxfordNoId : Dictionary :=
  { source := .OXFORD_ONLINE,
    dictionary := OxfordDictionary.init.search oxfordRespNoId,
    dictionary_entry_cache := { capacity := 1, count := 0, entries := [] } }

/-- A `Dictionary` over `localSample`, with a fresh capacity-1 cache. -/
def dLocal : Dictionary :=
  { source := .LOCAL, dictionary := localSample,
    dictionary_entry_cache := { capacity := 1, count := 0, entries := [] } }

/-! ### Lemmas about the cache operations -/

/-- On a chain of at least two nodes, the eviction loop removes exactly
the last node. -/
theorem remove_tailAux_eq_dropLast :
    ∀ (l : List DictionaryEntry), 2 ≤ l.length → remove_tailAux l = .ok l.dropLast
  | [], h => by simp at h
  | [_], h => by simp at h
  | [_, _], _ => rfl
  | x :: y :: z :: rest, _ => by
    have ih := remove_tailAux_eq_dropLast (y :: z :: rest) (by simp)
    simp [remove_tailAux, ih, List.dropLast]

/-- `add` of a well-formed entry on a well-formed cache: the entry goes
to the head and the resident list is truncated to capacity. -/
theorem add_entry_ok (c : DictionaryEntryCache) (e : DictionaryEntry) (h : c.wf) :
    c.add (.entry e) =
      .ok { capacity := c.capacity, count := min (c.count + 1) c.capacity,
            entries := (e :: c.entries).take c.capacity } := by
  obtain ⟨hcount, hle, hcap⟩ := h
  unfold DictionaryEntryCache.add
  by_cases hfull : c.count + 1 > c.capacity
  · have heq : c.count = c.capacity := le_antisymm hle (by omega)
    have hlen : 2 ≤ (e :: c.entries).length := by
      simp only [List.length_cons]; omega
    simp only [hfull, if_pos, DictionaryEntryCache.remove_tail,
      remove_tailAux_eq_dropLast _ hlen]
    have hdrop : (e :: c.entries).dropLast = (e :: c.entries).take c.capacity := by
      rw [List.dropLast_eq_take]
      simp only [List.length_cons]
      congr 1
      omega
    simp [hdrop]
    omega
  · have htake : (e :: c.entries).take c.capacity = e :: c.entries := by
      apply List.take_of_length_le
      simp only [List.length_cons]
      omega
    simp only [if_neg hfull, htake]
    congr 2
    omega

/-- Well-formedness is preserved by `add`. -/
theorem wf_add_result (c : DictionaryEntryCache) (e : DictionaryEntry) (h : c.wf) :
    DictionaryEntryCache.wf
      { capacity := c.capacity, count := min (c.count + 1) c.capacity,
        entries := (e :: c.entries).take c.capacity } := by
  obtain ⟨hcount, hle, hcap⟩ := h
  refine ⟨?_, ?_, hcap⟩
  · simp [List.length_take, hcount, Nat.min_comm]
  · exact min_le_right _ _

/-- Truncating the second summand of an append before an outer
truncation of no larger size changes nothing. -/
theorem take_append_take (B : List DictionaryEntry) :
    ∀ (A : List DictionaryEntry) (n m : Nat), n ≤ m →
      (A ++ B.take m).take n = (A ++ B).take n := by
  intro A
  induction A with
  | nil =>
    intro n m hnm
    simp [List.take_take, Nat.min_eq_left hnm]
  | cons a A ih =>
    intro n m hnm
    cases n with
    | zero => simp
    | succ k =>
      simp only [List.cons_append, List.take_succ_cons]
      rw [ih k m (by omega)]

/-- Running a sequence of `add` calls on a well-formed cache succeeds
and leaves the most recent `capacity` entries, newest first. -/
theorem foldAdds_ok (es : List DictionaryEntry) :
    ∀ (c : DictionaryEntryCache), c.wf →
      ∃ c', foldAdds c es = .ok c' ∧ c'.capacity = c.capacity ∧
        c'.entries = (es.reverse ++ c.entries).take c.capacity ∧ c'.wf := by
  induction es with
  | nil =>
    intro c hwf
    refine ⟨c, rfl, rfl, ?_, hwf⟩
    exact (List.take_of_length_le (by simpa using hwf.2.1.trans_eq' hwf.1.symm)).symm
  | cons e es ih =>
    intro c hwf
    obtain ⟨c', hfold, hcap, hentries, hwf'⟩ :=
      ih { capacity := c.capacity, count := min (c.count + 1) c.capacity,
           entries := (e :: c.entries).take c.capacity } (wf_add_result c e hwf)
    refine ⟨c', ?_, hcap, ?_, hwf'⟩
    · simpa [foldAdds, add_entry_ok c e hwf] using hfold
    · rw [hentries]
      simp only [List.reverse_cons, List.append_assoc, List.cons_append, List.nil_append]
      exact take_append_take (e :: c.entries) es.reverse c.capacity c.capacity le_rfl

/-- A scan over entries none of which carries the word finds nothing. -/
theorem searchLoop_eq_none (w : String) :
    ∀ (l : List DictionaryEntry), (∀ e ∈ l, e.word ≠ w) → searchLoop l w = none := by
  intro l
  induction l with
  | nil => intro _; rfl
  | cons x rest ih =>
    intro h
    simp only [searchLoop, if_neg (h x (by simp))]
    exact ih fun e he => h e (by simp [he])

/-- The scan finds the first entry carrying the word. -/
theorem searchLoop_first (w : String) (r : DictionaryEntry) (l₂ : List DictionaryEntry)
    (hw : r.word = w) :
    ∀ (l₁ : List DictionaryEntry), (∀ x ∈ l₁, x.word ≠ w) →
      searchLoop (l₁ ++ r :: l₂) w = some r := by
  intro l₁
  induction l₁ with
  | nil => intro _; simp [searchLoop, hw]
  | cons x rest ih =>
    intro h
    simp only [List.cons_append, searchLoop, if_neg (h x (by simp))]
    exact ih fun e he => h e (by simp [he])

/-- Removing a value none of whose copies occurs earlier unlinks
exactly its first occurrence, keeping the others in order. -/
theorem removeVal_first (r : DictionaryEntry) (l₂ : List DictionaryEntry) :
    ∀ (l₁ : List DictionaryEntry), (∀ x ∈ l₁, x ≠ r) →
      removeVal (l₁ ++ r :: l₂) r = .ok (l₁ ++ l₂) := by
  intro l₁
  induction l₁ with
  | nil => intro _; simp [removeVal]
  | cons x rest ih =>
    intro h
    have ih' := ih fun e he => h e (by simp [he])
    simp only [List.cons_append, removeVal, if_neg (h x (by simp)), List.append_eq, ih']

/-- A cache whose entries all miss the word raises `KeyError`. -/
theorem cache_search_miss (c : DictionaryEntryCache) (w : String)
    (h : ∀ e ∈ c.entries, e.word ≠ w) :
    c.search w = .error (.keyError ("Cannot find " ++ w)) := by
  simp [DictionaryEntryCache.search, searchLoop_eq_none w c.entries h]

/-- A `find` on the word of the head entry returns it and leaves the
cache unchanged: the head is removed and re-inserted at the head. -/
theorem cache_search_head (c : DictionaryEntryCache) (w : String) (r : DictionaryEntry)
    (t : List DictionaryEntry) (hent : c.entries = r :: t) (hr : r.word = w) :
    c.search w = .ok (r, c) := by
  have hloop : searchLoop c.entries w = some r := by
    rw [hent]
    simp [searchLoop, hr]
  have hrem : removeVal c.entries r = .ok t := by
    rw [hent]
    simp [removeVal]
  simp only [DictionaryEntryCache.search, hloop, hrem]
  cases c with
  | mk cap cnt ent =>
    simp only at hent
    subst hent
    rfl

/-! ### Claims about the cache -/

/-- Claim C2: for every sequence of `add` calls on a cache constructed
with capacity `C ≥ 1`, the resident count never exceeds `C`; and an
`add` performed when the cache already holds `C` entries evicts exactly
one entry, the least-recently-touched (tail) one, the new state being
the fresh entry at the head followed by all old entries but the tail. -/
theorem claim2_capacity_invariant (C : Nat) (hC : 1 ≤ C) (c₀ : DictionaryEntryCache)
    (h₀ : DictionaryEntryCache.init C = .ok c₀) (es : List DictionaryEntry) :
    (∀ n, ∃ c', foldAdds c₀ (es.take n) = .ok c' ∧ c'.count ≤ C) ∧
    (∀ (c : DictionaryEntryCache) (e : DictionaryEntry), c.wf → c.capacity = C →
      c.count = C →
      c.add (.entry e) =
        .ok { capacity := C, count := C, entries := e :: c.entries.dropLast }) := by
  have hc₀ : c₀ = { capacity := C, count := 0, entries := [] } := by
    rw [DictionaryEntryCache.init, if_neg (by omega)] at h₀
    injection h₀ with h
    exact h.symm
  constructor
  · intro n
    have hwf : c₀.wf := by rw [hc₀]; exact ⟨rfl, by simp, hC⟩
    obtain ⟨c', hfold, hcap, _, hwf'⟩ := foldAdds_ok (es.take n) c₀ hwf
    exact ⟨c', hfold, hwf'.2.1.trans_eq (hcap.trans (by rw [hc₀]))⟩
  · intro c e hwf hcap hcount
    have hne : c.entries.length = C := by
      have h1 := hwf.1
      omega
    have htake : (e :: c.entries).take C = e :: c.entries.dropLast := by
      obtain ⟨k, hk⟩ : ∃ k, C = k + 1 := ⟨C - 1, by omega⟩
      rw [hk, List.take_succ_cons, List.dropLast_eq_take, hne]
      simp [hk]
    rw [add_entry_ok c e hwf, hcap, hcount, Nat.min_eq_right (by omega), htake]

/-- Claim C2 witness: capacity 1, two adds; and an add on a full
capacity-1 cache evicting its only (tail) entry. -/
theorem claim2_capacity_invariant_witness :
    (∃ c', foldAdds { capacity := 1, count := 0, entries := [] }
        ([runEntry, walkEntry].take 2) = .ok c' ∧ c'.count ≤ 1) ∧
    DictionaryEntryCache.add { capacity := 1, count := 1, entries := [runEntry] }
        (.entry walkEntry) =
      .ok { capacity := 1, count := 1, entries := [walkEntry] } := by
  constructor
  · exact (claim2_capacity_invariant 1 (by decide) _ rfl [runEntry, walkEntry]).1 2
  · have h := (claim2_capacity_invariant 1 (by decide) { capacity := 1, count := 0, entries := [] }
      rfl []).2 { capacity := 1, count := 1, entries := [runEntry] } walkEntry
      (by decide) rfl rfl
    simpa using h

/-- Claim C3: with capacity `C ≥ 1` and `C + 1` inserts of entries with
pairwise-distinct words into a fresh cache, with no intervening finds,
the first-inserted entry is evicted and the cache holds exactly the
last `C` entries, newest first. -/
theorem claim3_eviction_order (C : Nat) (hC : 1 ≤ C) (e₀ : DictionaryEntry)
    (rest : List DictionaryEntry) (hlen : rest.length = C)
    (hdist : (e₀ :: rest).Pairwise (fun a b => a.word ≠ b.word)) :
    ∃ c₀ c', DictionaryEntryCache.init C = .ok c₀ ∧
      foldAdds c₀ (e₀ :: rest) = .ok c' ∧
      c'.entries = rest.reverse ∧ e₀ ∉ c'.entries := by
  have h₀ : DictionaryEntryCache.init C = .ok { capacity := C, count := 0, entries := [] } := by
    rw [DictionaryEntryCache.init, if_neg (by omega)]
  have hwf : DictionaryEntryCache.wf { capacity := C, count := 0, entries := [] } :=
    ⟨rfl, by simp, hC⟩
  obtain ⟨c', hfold, hcap, hentries, _⟩ := foldAdds_ok (e₀ :: rest) _ hwf
  have hrev : c'.entries = rest.reverse := by
    rw [hentries]
    simp only [List.reverse_cons, List.append_nil]
    have hlenr : rest.reverse.length = C := by simpa using hlen
    rw [← hlenr, List.take_left]
  refine ⟨_, c', h₀, hfold, hrev, ?_⟩
  intro hmem
  rw [hrev, List.mem_reverse] at hmem
  exact (List.pairwise_cons.mp hdist).1 e₀ hmem rfl

/-- Claim C3 witness: capacity 1, inserts of `run` then `walk`. -/
theorem claim3_eviction_order_witness :
    ∃ c₀ c', DictionaryEntryCache.init 1 = .ok c₀ ∧
      foldAdds c₀ [runEntry, walkEntry] = .ok c' ∧
      c'.entries = [walkEntry].reverse ∧ runEntry ∉ c'.entries :=
  claim3_eviction_order 1 (by decide) runEntry [walkEntry] rfl
    (by simp [runEntry, walkEntry])

/-- Claim C4: a successful `find` on a word present in the cache
returns the first entry carrying that word, promotes it to the head,
and keeps the relative order of all other entries; `count` and
`capacity` are untouched. -/
theorem claim4_promotion (c : DictionaryEntryCache) (w : String)
    (l₁ l₂ : List DictionaryEntry) (r : DictionaryEntry)
    (hsplit : c.entries = l₁ ++ r :: l₂) (hw : r.word = w)
    (hbefore : ∀ x ∈ l₁, x.word ≠ w) :
    c.search w = .ok (r, { c with entries := r :: (l₁ ++ l₂) }) := by
  have hne : ∀ x ∈ l₁, x ≠ r := by
    intro x hx he
    exact hbefore x hx (he ▸ hw)
  simp only [DictionaryEntryCache.search, hsplit,
    searchLoop_first w r l₂ hw l₁ hbefore, removeVal_first r l₂ l₁ hne]

/-- Claim C4 witness: a two-entry cache, find on the second word. -/
theorem claim4_promotion_witness :
    DictionaryEntryCache.search { capacity := 2, count := 2, entries := [runEntry, walkEntry] }
        "walk" =
      .ok (walkEntry, { capacity := 2, count := 2, entries := [walkEntry, runEntry] }) := by
  have h := claim4_promotion { capacity := 2, count := 2, entries := [runEntry, walkEntry] }
    "walk" [runEntry] [] walkEntry rfl rfl (by decide)
  simpa using h

/-- Claim C8: the `RuntimeError` branch of `remove_tail` is unreachable
under correct usage: on any chain of at least two nodes `remove_tail`'s
loop succeeds, and `add` (its only caller, which invokes it just after
an insertion has pushed the count above the capacity) never raises on a
well-formed cache. -/
theorem claim8_invariant_violation_unreachable :
    (∀ l : List DictionaryEntry, 2 ≤ l.length → ∃ l', remove_tailAux l = .ok l') ∧
    (∀ (c : DictionaryEntryCache) (e : DictionaryEntry), c.wf →
      ∃ c', c.add (.entry e) = .ok c') := by
  constructor
  · intro l hl
    exact ⟨l.dropLast, remove_tailAux_eq_dropLast l hl⟩
  · intro c e hwf
    exact ⟨_, add_entry_ok c e hwf⟩

/-- Claim C8 witness: a two-node chain and a full capacity-1 cache. -/
theorem claim8_invariant_violation_unreachable_witness :
    (∃ l', remove_tailAux [runEntry, walkEntry] = .ok l') ∧
    (∃ c', DictionaryEntryCache.add { capacity := 1, count := 1, entries := [runEntry] }
        (.entry walkEntry) = .ok c') :=
  ⟨claim8_invariant_violation_unreachable.1 [runEntry, walkEntry] (by decide),
   claim8_invariant_violation_unreachable.2 { capacity := 1, count := 1, entries := [runEntry] }
     walkEntry (by decide)⟩

/-! ### Claims about the orchestrator -/

/-- Claim C1: `Dictionary.search` queries the cache first; on a hit it
returns the record with the `CACHE` tier and the promoted cache state;
on the cache's `KeyError` it queries the backing source, and on the
source's success it inserts the result into the cache and returns it
with the tier identifying the configured backing source. -/
theorem claim1_search_protocol (d : Dictionary) (w : String) :
    (∀ (r : DictionaryEntry) (c' : DictionaryEntryCache),
      d.dictionary_entry_cache.search w = .ok (r, c') →
        d.search w = (.ok (.entry r, DictionarySource.CACHE),
          { d with dictionary_entry_cache := c' })) ∧
    (∀ (m : String) (v : PyVal) (c' : DictionaryEntryCache),
      d.dictionary_entry_cache.search w = .error (.keyError m) →
        d.dictionary w = .ok v → d.dictionary_entry_cache.add v = .ok c' →
        d.search w = (.ok (v, d.source), { d with dictionary_entry_cache := c' })) := by
  constructor
  · intro r c' hhit
    simp [Dictionary.search, hhit]
  · intro m v c' hmiss hsrc hadd
    simp [Dictionary.search, hmiss, hsrc, hadd]

/-- Claim C1 witness: a cache hit on `run` and, on a fresh dictionary,
a miss resolved by the local source and inserted into the cache. -/
theorem claim1_search_protocol_witness :
    Dictionary.search
        { source := .LOCAL, dictionary := localSample,
          dictionary_entry_cache := { capacity := 1, count := 1, entries := [runEntry] } } "run" =
      (.ok (.entry runEntry, DictionarySource.CACHE),
        { source := .LOCAL, dictionary := localSample,
          dictionary_entry_cache := { capacity := 1, count := 1, entries := [runEntry] } }) ∧
    dLocal.search "walk" =
      (.ok (.entry walkEntry, DictionarySource.LOCAL),
        { source := .LOCAL, dictionary := localSample,
          dictionary_entry_cache := { capacity := 1, count := 1, entries := [walkEntry] } }) :=
  ⟨(claim1_search_protocol _ "run").1 runEntry _ rfl,
   (claim1_search_protocol dLocal "walk").2 "Cannot find walk" (.entry walkEntry)
     { capacity := 1, count := 1, entries := [walkEntry] } rfl rfl rfl⟩

/-- Claim C5: a search for a word absent from both the cache and the
backing source fails with the source's `KeyError` and leaves the
dictionary — in particular the cache's count and entry order —
exactly as it was. -/
theorem claim5_miss_propagation (d : Dictionary) (w m : String)
    (hc : ∀ e ∈ d.dictionary_entry_cache.entries, e.word ≠ w)
    (hs : d.dictionary w = .error (.keyError m)) :
    d.search w = (.error (.keyError m), d) := by
  simp [Dictionary.search, cache_search_miss d.dictionary_entry_cache w hc, hs]

/-- Claim C5 witness: `zzz` is absent from `dLocal`'s cache and from
the local source. -/
theorem claim5_miss_propagation_witness :
    dLocal.search "zzz" = (.error (.keyError "zzz"), dLocal) :=
  claim5_miss_propagation dLocal "zzz" "zzz" (by simp [dLocal]) rfl

/-- Claim C6 counterexample: with the remote source, the word `"RUN"`
is absent from the fresh cache and resolvable by the backing source
(the response resolves it to the record with `id` `"run"`), yet the
immediately repeated search again returns the `OXFORD_ONLINE` tier —
not the `CACHE` tier the claim promises — because the cached record
carries the lowercased word `"run"`, which the case-sensitive cache
scan does not match against `"RUN"`. -/
theorem claim6_cex :
    (dOxford.search "RUN").1 = .ok (.entry runEntry, .OXFORD_ONLINE) ∧
    ((dOxford.search "RUN").2.search "RUN").1 = .ok (.entry runEntry, .OXFORD_ONLINE) ∧
    DictionarySource.OXFORD_ONLINE ≠ DictionarySource.CACHE :=
  ⟨rfl, rfl, by decide⟩

/-- Claim C6 as amended: when the backing source resolves the word to a
record whose `word` field equals the queried word (as the local source
always does), the first search returns the record with the source tier
and every immediately repeated search returns it with the `CACHE` tier,
the dictionary state being a fixed point of the repeated search. -/
theorem claim6_read_through (d : Dictionary) (w : String) (r : DictionaryEntry)
    (hwf : d.dictionary_entry_cache.wf)
    (hc : ∀ e ∈ d.dictionary_entry_cache.entries, e.word ≠ w)
    (hs : d.dictionary w = .ok (.entry r)) (hr : r.word = w) :
    ∃ d₁, d.search w = (.ok (.entry r, d.source), d₁) ∧
      d₁.search w = (.ok (.entry r, DictionarySource.CACHE), d₁) := by
  obtain ⟨k, hk⟩ : ∃ k, d.dictionary_entry_cache.capacity = k + 1 :=
    ⟨d.dictionary_entry_cache.capacity - 1, by have := hwf.2.2; omega⟩
  have hadd := add_entry_ok d.dictionary_entry_cache r hwf
  refine ⟨{ d with dictionary_entry_cache :=
    { capacity := d.dictionary_entry_cache.capacity,
      count := min (d.dictionary_entry_cache.count + 1) d.dictionary_entry_cache.capacity,
      entries := (r :: d.dictionary_entry_cache.entries).take
        d.dictionary_entry_cache.capacity } }, ?_, ?_⟩
  · simp [Dictionary.search, cache_search_miss d.dictionary_entry_cache w hc, hs, hadd]
  · have hent : (r :: d.dictionary_entry_cache.entries).take
        d.dictionary_entry_cache.capacity
        = r :: d.dictionary_entry_cache.entries.take k := by
      rw [hk, List.take_succ_cons]
    have hsearch := cache_search_head
      { capacity := d.dictionary_entry_cache.capacity,
        count := min (d.dictionary_entry_cache.count + 1) d.dictionary_entry_cache.capacity,
        entries := (r :: d.dictionary_entry_cache.entries).take
          d.dictionary_entry_cache.capacity }
      w r (d.dictionary_entry_cache.entries.take k) hent hr
    simp [Dictionary.search, hsearch]

/-- Claim C6 (amended) witness: `dLocal` and the word `run`. -/
theorem claim6_read_through_witness :
    ∃ d₁, dLocal.search "run" = (.ok (.entry runEntry, dLocal.source), d₁) ∧
      d₁.search "run" = (.ok (.entry runEntry, DictionarySource.CACHE), d₁) :=
  claim6_read_through dLocal "run" runEntry (by decide) (by simp [dLocal]) rfl rfl

/-- Claim C7 counterexample: the URL the code builds for `run` is not
the endpoint followed by the language code, a path separator, and
exactly the lowercased word — the code inserts a space between the
separator and the word (`"/ "` instead of `"/"`). -/
theorem claim7_cex :
    (OxfordDictionary.init.request "run").url ≠ claimOxfordUrl "run" := by
  intro h
  have h' := congrArg String.length h
  simp [OxfordDictionary.request, claimOxfordUrl, String.length_append] at h'
  exact absurd h' (by decide)

/-- Claim C7 as amended: for every input word, the remote source's GET
request targets the fixed lookup-service endpoint followed by the
language code, a path separator, a space character, and the lowercased
input word, and its headers carry the two hardcoded credentials. -/
theorem claim7_request_shape (w : String) :
    OxfordDictionary.init.request w =
      { url := "https://od-api.oxforddictionaries.com:443/api/v2/entries/en-gb/ "
          ++ w.toLower,
        headers := [("app_id", "5a065188"),
                    ("app_key", "cb986155975e3c58923550cdd197660c")] } := rfl

/-- Claim C9: constructing a `Dictionary` with the `CACHE` source tag —
the only tag besides the local and remote variants — fails with
`ValueError`; no orchestrator whose backing source is the cache itself
can be created. -/
theorem claim9_no_cache_source (oxford locald : String → Except PyErr PyVal) :
    Dictionary.init oxford locald .CACHE = .error (.valueError "") ∧
    ∀ (s : DictionarySource) (d : Dictionary),
      Dictionary.init oxford locald s = .ok d → s ≠ .CACHE := by
  refine ⟨rfl, ?_⟩
  intro s d h hs
  subst hs
  exact absurd h (by simp [Dictionary.init])

/-- Claim C9 witness: the `CACHE` tag is rejected while the `LOCAL` tag
constructs an orchestrator, whose tag is therefore not `CACHE`. -/
theorem claim9_no_cache_source_witness :
    Dictionary.init (OxfordDictionary.init.search oxfordRespRun) localSample .CACHE
      = .error (.valueError "") ∧
    DictionarySource.LOCAL ≠ DictionarySource.CACHE :=
  ⟨(claim9_no_cache_source (OxfordDictionary.init.search oxfordRespRun) localSample).1,
   (claim9_no_cache_source (OxfordDictionary.init.search oxfordRespRun) localSample).2
     .LOCAL
     { source := .LOCAL, dictionary := localSample,
       dictionary_entry_cache := { capacity := 1, count := 0, entries := [] } }
     rfl⟩

/-- Claim C10: when the remote source's 200-status response lacks the
`id` field, `OxfordDictionary.search` returns the plain string
`"word not found"` instead of a record or a `KeyError`; consequently a
`Dictionary` over the remote source, searching a word absent from its
cache, raises `TypeError` from the cache's `add` — which rejects
non-`DictionaryEntry` values — rather than propagating a not-found
condition, leaving the dictionary unchanged. -/
theorem claim10_sentinel_type_error (http : OxfordRequest → HttpResp) (w : String)
    (h200 : (http (OxfordDictionary.init.request w)).status = 200)
    (hid : (http (OxfordDictionary.init.request w)).id = none)
    (d : Dictionary) (hb : d.dictionary = OxfordDictionary.init.search http)
    (hc : ∀ e ∈ d.dictionary_entry_cache.entries, e.word ≠ w) :
    OxfordDictionary.init.search http w = .ok (.str "word not found") ∧
    d.search w = (.error (.typeError "entry should be DictionaryEntry"), d) := by
  have hox : OxfordDictionary.init.search http w = .ok (.str "word not found") := by
    rw [OxfordDictionary.search]
    simp only [h200, hid]
    simp
  refine ⟨hox, ?_⟩
  simp [Dictionary.search, cache_search_miss d.dictionary_entry_cache w hc, hb, hox,
    DictionaryEntryCache.add]

/-- Claim C10 witness: `dOxfordNoId` and the word `zzz`. -/
theorem claim10_sentinel_type_error_witness :
    OxfordDictionary.init.search oxfordRespNoId "zzz" = .ok (.str "word not found") ∧
    dOxfordNoId.search "zzz" =
      (.error (.typeError "entry should be DictionaryEntry"), dOxfordNoId) :=
  claim10_sentinel_type_error oxfordRespNoId "zzz" rfl rfl dOxfordNoId rfl
    (by simp [dOxfordNoId])
